import Mathlib

/-!
Shallow embedding of the flight-simulator2 simulation core:
the vector utilities, the environment effects (wind, terrain, chain),
the georeference, and the engine actor's command handling and tick step.
Go float64 arithmetic is modelled over the real numbers.
-/

noncomputable section

/-! ## Vector package -/

/-- A 3D vector in local ENU coordinates (x east, y north, z up). -/
structure Vec3 where
  x : ℝ
  y : ℝ
  z : ℝ

/-- Sum of two vectors. -/
def Vec3.Add (v o : Vec3) : Vec3 := ⟨v.x + o.x, v.y + o.y, v.z + o.z⟩

/-- Difference of two vectors. -/
def Vec3.Sub (v o : Vec3) : Vec3 := ⟨v.x - o.x, v.y - o.y, v.z - o.z⟩

/-- Scale a vector by a scalar. -/
def Vec3.Mul (v : Vec3) (k : ℝ) : Vec3 := ⟨v.x * k, v.y * k, v.z * k⟩

/-- Dot product. -/
def Vec3.Dot (v o : Vec3) : ℝ := v.x * o.x + v.y * o.y + v.z * o.z

/-- As written in the source: `Norm` returns `v.Dot(v)` (no square root). -/
def Vec3.Norm (v : Vec3) : ℝ := v.Dot v

/-- Cross product. -/
def Vec3.Cross (v o : Vec3) : Vec3 :=
  ⟨v.y * o.z - v.z * o.y, v.z * o.x - v.x * o.z, v.x * o.y - v.y * o.x⟩

/-- As written in the source: zero vector if `Norm` is zero, else `v.Mul (1 / v.Norm)`. -/
def Vec3.Normalize (v : Vec3) : Vec3 :=
  if v.Norm = 0 then ⟨0, 0, 0⟩ else v.Mul (1 / v.Norm)

/-! ## Environment package -/

/-- The `Environment` interface: `Apply(dt, pos, vel) -> (pos, vel, warning)`. -/
abbrev Environment := ℝ → Vec3 → Vec3 → Vec3 × Vec3 × String

/-- Constant wind (eastward `Wx`, northward `Wy`, in m/s). -/
structure Wind where
  Wx : ℝ
  Wy : ℝ

/-- Wind drifts the position by `(Wx*dt, Wy*dt, 0)`; velocity passes through. -/
def Wind.Apply (w : Wind) (dt : ℝ) (pos vel : Vec3) : Vec3 × Vec3 × String :=
  (pos.Add ⟨w.Wx * dt, w.Wy * dt, 0⟩, vel, "")

/-- Terrain floor with a safety margin in meters. -/
structure Terrain where
  SafetyMarginM : ℝ

/-- Synthetic terrain height `sin(x/1000)*100 + sin((x+y)/500)*50`. -/
def Terrain.GroundAltitude (_t : Terrain) (pos : Vec3) : ℝ :=
  Real.sin (pos.x / 1000) * 100 + Real.sin ((pos.x + pos.y) / 500) * 50

/-- Clamp altitude to ground plus safety margin; zero a descending vertical velocity. -/
def Terrain.Apply (t : Terrain) (_dt : ℝ) (pos vel : Vec3) : Vec3 × Vec3 × String :=
  let groundAlt := t.GroundAltitude pos
  let minAllowedAlt := groundAlt + t.SafetyMarginM
  if pos.z < minAllowedAlt then
    (⟨pos.x, pos.y, minAllowedAlt⟩,
     (if vel.z < 0 then ⟨vel.x, vel.y, 0⟩ else vel),
     "terrain-floor: altitude clipped to safety margin")
  else
    (pos, vel, "")

/-- An ordered chain of environment effects. -/
structure Chain where
  Effects : List Environment

/-- The loop body of `Chain.Apply`: thread pos/vel through each effect,
keeping the last non-empty warning in the accumulator. -/
def Chain.applyFrom (dt : ℝ) : List Environment → Vec3 → Vec3 → String → Vec3 × Vec3 × String
  | [], pos, vel, warning => (pos, vel, warning)
  | e :: rest, pos, vel, warning =>
    Chain.applyFrom dt rest (e dt pos vel).1 (e dt pos vel).2.1
      (if (e dt pos vel).2.2 ≠ "" then (e dt pos vel).2.2 else warning)

/-- Apply every effect in order, starting from an empty warning. -/
def Chain.Apply (c : Chain) (dt : ℝ) (pos vel : Vec3) : Vec3 × Vec3 × String :=
  Chain.applyFrom dt c.Effects pos vel ""

/-- Position/velocity threading as the spec words it: the output of effect i
feeds effect i+1, in list order. -/
def chainThread (dt : ℝ) (effects : List Environment) (pos vel : Vec3) : Vec3 × Vec3 :=
  effects.foldl (fun pv e => ((e dt pv.1 pv.2).1, (e dt pv.1 pv.2).2.1)) (pos, vel)

/-- The warning each effect emits along the threaded run, in list order. -/
def chainWarningList (dt : ℝ) : List Environment → Vec3 → Vec3 → List String
  | [], _, _ => []
  | e :: rest, pos, vel =>
    (e dt pos vel).2.2 :: chainWarningList dt rest (e dt pos vel).1 (e dt pos vel).2.1

/-- The spec's warning semantics: the last non-empty warning encountered,
empty if no effect warned. -/
def lastNonEmpty (ws : List String) : String :=
  (ws.filter (fun w => decide (w ≠ ""))).getLastD ""

/-! ## Georeference and heading -/

/-- Meters per degree of latitude. -/
def metersPerDegLat : ℝ := 111320

/-- Local tangent-plane georeference with a fixed origin. -/
structure GeoRef where
  OriginLat : ℝ
  OriginLon : ℝ

/-- Meters per degree of longitude at the origin latitude. -/
def GeoRef.metersPerDegLon (g : GeoRef) : ℝ :=
  metersPerDegLat * Real.cos (g.OriginLat * Real.pi / 180)

/-- Geodetic to local ENU conversion. -/
def GeoRef.GeoToLocal (g : GeoRef) (lat lon alt : ℝ) : Vec3 :=
  ⟨(lon - g.OriginLon) * g.metersPerDegLon, (lat - g.OriginLat) * metersPerDegLat, alt⟩

/-- Local ENU to geodetic conversion, returning (lat, lon, alt). -/
def GeoRef.LocalToGeo (g : GeoRef) (p : Vec3) : ℝ × ℝ × ℝ :=
  (g.OriginLat + p.y / metersPerDegLat, g.OriginLon + p.x / g.metersPerDegLon, p.z)

/-- Mathematical model of the atan2 library primitive used by the heading code. -/
def atan2 (y x : ℝ) : ℝ :=
  if 0 < x then Real.arctan (y / x)
  else if x < 0 ∧ 0 ≤ y then Real.arctan (y / x) + Real.pi
  else if x < 0 ∧ y < 0 then Real.arctan (y / x) - Real.pi
  else if x = 0 ∧ 0 < y then Real.pi / 2
  else if x = 0 ∧ y < 0 then -(Real.pi / 2)
  else 0

/-- Heading in degrees from a velocity vector (0 = north, 90 = east). -/
def HeadingDegFromVec (v : Vec3) : ℝ :=
  if |v.x| < 1e-9 ∧ |v.y| < 1e-9 then 0
  else
    let deg := atan2 v.x v.y * 180 / Real.pi
    if deg < 0 then deg + 360 else deg

/-! ## Commands -/

/-- A trajectory waypoint. -/
structure Waypoint where
  Lat : ℝ
  Lon : ℝ
  Alt : ℝ
  Speed : ℝ

/-- The command tagged union (received-at timestamps are irrelevant to the
tick semantics and omitted). -/
inductive Command where
  | goTo (lat lon alt speed : ℝ)
  | trajectory (waypoints : List Waypoint) (loop : Bool)
  | hold
  | stop

/-- The command's type tag as reported in snapshots. -/
def Command.typeTag : Command → String
  | .goTo _ _ _ _ => "goto"
  | .trajectory _ _ => "trajectory"
  | .hold => "hold"
  | .stop => "stop"

/-! ## Engine actor state and tuning constants -/

/-- Tuning constant `posTolM` from the engine. -/
def posTolM : ℝ := 25

/-- Tuning constant `altTolM` from the engine. -/
def altTolM : ℝ := 10

/-- Tuning constant `defaultSpeed` from the engine. -/
def defaultSpeed : ℝ := 80

/-- Tuning constant `maxClimbRate` from the engine. -/
def maxClimbRate : ℝ := 8

/-- Tuning constant `maxHorizAccel` from the engine. -/
def maxHorizAccel : ℝ := 12

/-- Tuning constant `maxVertAccel` from the engine. -/
def maxVertAccel : ℝ := 5

/-- The actor-owned mutable state of `Run`. The Go `int` index is kept as a
natural number: the code only ever assigns 0 or increments it, so the
defensive `trajIdx < 0` bounds check is vacuous. -/
structure EngineState where
  pos : Vec3
  vel : Vec3
  active : Option Command
  traj : List Waypoint
  trajIdx : ℕ
  trajLoop : Bool

/-- The state at the top of `Run`: at the origin, 1000 m up, idle. -/
def initState (g : GeoRef) : EngineState :=
  { pos := g.GeoToLocal g.OriginLat g.OriginLon 1000
    vel := ⟨0, 0, 0⟩
    active := none
    traj := []
    trajIdx := 0
    trajLoop := false }

/-- `setActive`: replace the active command and reset the trajectory cursor. -/
def setActive (s : EngineState) (cmd : Command) : EngineState :=
  match cmd with
  | .trajectory wps lp =>
    { s with active := some cmd, traj := wps, trajIdx := 0, trajLoop := lp }
  | _ => { s with active := some cmd, traj := [], trajIdx := 0, trajLoop := false }

/-- The command-channel handler of `Run` (one received command). -/
def applyCommand (s : EngineState) (cmd : Command) : EngineState :=
  match cmd with
  | .stop => { s with active := none, traj := [], trajIdx := 0, vel := ⟨0, 0, 0⟩ }
  | .hold => { s with active := some .hold, traj := [], trajIdx := 0, vel := ⟨0, 0, 0⟩ }
  | _ => setActive s cmd

/-- Horizontal (x, y) magnitude. -/
def dist2D (a : Vec3) : ℝ := Real.sqrt (a.x * a.x + a.y * a.y)

/-- Horizontal unit vector, zero when the magnitude is below 1e-9. -/
def normalize2D (v : Vec3) : Vec3 :=
  if dist2D v < 1e-9 then ⟨0, 0, 0⟩ else ⟨v.x / dist2D v, v.y / dist2D v, 0⟩

/-- `computeDesiredVel`: horizontal unit vector toward the target scaled by
speed outside the 25 m tolerance; vertical climb/descend at the max climb
rate outside the 10 m tolerance. -/
def computeDesiredVel (pos target : Vec3) (speed : ℝ) : Vec3 :=
  let delta : Vec3 := ⟨target.x - pos.x, target.y - pos.y, target.z - pos.z⟩
  let horiz : Vec3 := ⟨delta.x, delta.y, 0⟩
  let hDist := dist2D horiz
  { x := if hDist > posTolM then (normalize2D horiz).x * speed else 0
    y := if hDist > posTolM then (normalize2D horiz).y * speed else 0
    z := if delta.z > altTolM then maxClimbRate
         else if delta.z < -altTolM then -maxClimbRate else 0 }

/-- Rate-limited approach of one scalar toward a desired value. -/
def approach (cur des amax dt : ℝ) : ℝ :=
  if des - cur > amax * dt then cur + amax * dt
  else if des - cur < -(amax * dt) then cur - amax * dt
  else des

/-- Per-axis rate-limited velocity step: 12 m/s² horizontal, 5 m/s² vertical. -/
def approachVel (cur des : Vec3) (dt : ℝ) : Vec3 :=
  ⟨approach cur.x des.x maxHorizAccel dt,
   approach cur.y des.y maxHorizAccel dt,
   approach cur.z des.z maxVertAccel dt⟩

/-- The command state machine part of the tick: from the active command,
produce the updated active command / trajectory cursor and the desired
velocity for this tick. -/
def commandStep (geo : GeoRef) (s : EngineState) : EngineState × Vec3 :=
  match s.active with
  | none => (s, ⟨0, 0, 0⟩)
  | some c =>
    match c with
    | .goTo lat lon alt speed =>
      let target := geo.GeoToLocal lat lon alt
      let sp := if speed ≤ 0 then defaultSpeed else speed
      let desired := computeDesiredVel s.pos target sp
      if dist2D ⟨target.x - s.pos.x, target.y - s.pos.y, 0⟩ ≤ posTolM ∧
          |target.z - s.pos.z| ≤ altTolM then
        ({ s with active := none }, ⟨0, 0, 0⟩)
      else
        (s, desired)
    | .trajectory _ _ =>
      if s.traj.length = 0 ∨ s.trajIdx ≥ s.traj.length then
        ({ s with active := none }, ⟨0, 0, 0⟩)
      else
        let wp := s.traj.getD s.trajIdx ⟨0, 0, 0, 0⟩
        let target := geo.GeoToLocal wp.Lat wp.Lon wp.Alt
        let sp := if wp.Speed ≤ 0 then defaultSpeed else wp.Speed
        let desired := computeDesiredVel s.pos target sp
        if dist2D ⟨target.x - s.pos.x, target.y - s.pos.y, 0⟩ ≤ posTolM ∧
            |target.z - s.pos.z| ≤ altTolM then
          if s.trajIdx + 1 ≥ s.traj.length then
            if s.trajLoop then ({ s with trajIdx := 0 }, desired)
            else ({ s with active := none, trajIdx := s.trajIdx + 1 }, ⟨0, 0, 0⟩)
          else ({ s with trajIdx := s.trajIdx + 1 }, desired)
        else
          (s, desired)
    | .hold => (s, ⟨0, 0, 0⟩)
    | .stop => (s, ⟨0, 0, 0⟩)

/-- One full tick: command step, rate-limited smoothing, environment chain,
position integration. Returns the new state and the tick's warning. -/
def tickStep (geo : GeoRef) (envOpt : Option Environment) (dt : ℝ) (s : EngineState) :
    EngineState × String :=
  let cs := commandStep geo s
  let vel1 := approachVel s.vel cs.2 dt
  let pv := match envOpt with
    | some env => env dt cs.1.pos vel1
    | none => (cs.1.pos, vel1, "")
  ({ cs.1 with
      pos := ⟨pv.1.x + pv.2.1.x * dt, pv.1.y + pv.2.1.y * dt, pv.1.z + pv.2.1.z * dt⟩
      vel := pv.2.1 },
   pv.2.2)

/-! ## Snapshots -/

/-- The snapshot record (the timestamp is irrelevant to the claims and omitted). -/
structure AircraftState where
  Lat : ℝ
  Lon : ℝ
  Alt : ℝ
  Vx : ℝ
  Vy : ℝ
  Vz : ℝ
  HeadingDeg : ℝ
  ActiveCommand : String
  TargetIndex : ℕ
  Warning : String

/-- `buildSnapshot` from the engine: converts the position back to geodetic
coordinates and copies the velocity, heading, command tag, cursor, warning. -/
def buildSnapshot (geo : GeoRef) (s : EngineState) (warning : String) : AircraftState :=
  { Lat := (geo.LocalToGeo s.pos).1
    Lon := (geo.LocalToGeo s.pos).2.1
    Alt := (geo.LocalToGeo s.pos).2.2
    Vx := s.vel.x
    Vy := s.vel.y
    Vz := s.vel.z
    HeadingDeg := HeadingDegFromVec s.vel
    ActiveCommand := match s.active with
      | some c => c.typeTag
      | none => ""
    TargetIndex := s.trajIdx
    Warning := warning }

/-- The reply the `stateReqCh` handler sends: a snapshot with an empty warning. -/
def getStateReply (geo : GeoRef) (s : EngineState) : AircraftState :=
  buildSnapshot geo s ""

/-- The snapshot the `subscribeCh` handler sends to a new subscriber. -/
def subscribeSnapshot (geo : GeoRef) (s : EngineState) : AircraftState :=
  buildSnapshot geo s ""

/-- The snapshot broadcast at the end of a tick, carrying the tick's warning. -/
def tickBroadcast (geo : GeoRef) (envOpt : Option Environment) (dt : ℝ)
    (s : EngineState) : AircraftState :=
  buildSnapshot geo (tickStep geo envOpt dt s).1 (tickStep geo envOpt dt s).2

/-! ## Reachable engine states -/

/-- States of the engine actor reachable from the initial state by processing
commands and ticks (with a positive time step, as guaranteed by the fallback). -/
inductive Reachable (geo : GeoRef) (envOpt : Option Environment) : EngineState → Prop where
  | init : Reachable geo envOpt (initState geo)
  | cmd (s : EngineState) (c : Command) :
      Reachable geo envOpt s → Reachable geo envOpt (applyCommand s c)
  | tick (s : EngineState) (dt : ℝ) :
      0 < dt → Reachable geo envOpt s →
      Reachable geo envOpt (tickStep geo envOpt dt s).1

end

/-! ## Theorems -/

/-- Claim C5: for every dt, pos and vel, `Wind.Apply` leaves the velocity
exactly unchanged, moves the position by exactly `(Wx*dt, Wy*dt, 0)`, and
emits an empty warning. -/
theorem wind_apply_spec (w : Wind) (dt : ℝ) (pos vel : Vec3) :
    (w.Apply dt pos vel).2.1 = vel ∧
    (w.Apply dt pos vel).1.x = pos.x + w.Wx * dt ∧
    (w.Apply dt pos vel).1.y = pos.y + w.Wy * dt ∧
    (w.Apply dt pos vel).1.z = pos.z ∧
    (w.Apply dt pos vel).2.2 = "" := by
  simp [Wind.Apply, Vec3.Add]

/-- Claim C9 (code bug): `Vec3.Normalize` does not return a unit vector.
`Norm` returns `Dot(v, v)` (the squared magnitude), so normalizing
`(2, 0, 0)` yields `(1/2, 0, 0)`, whose Euclidean magnitude is `1/2`, not 1. -/
theorem normalize_squared_norm_bug :
    Vec3.Normalize ⟨2, 0, 0⟩ = ⟨1 / 2, 0, 0⟩ ∧
    Real.sqrt ((Vec3.Normalize ⟨2, 0, 0⟩).Dot (Vec3.Normalize ⟨2, 0, 0⟩)) = 1 / 2 ∧
    Real.sqrt ((Vec3.Normalize ⟨2, 0, 0⟩).Dot (Vec3.Normalize ⟨2, 0, 0⟩)) ≠ 1 := by
  have h : Vec3.Normalize ⟨2, 0, 0⟩ = ⟨1 / 2, 0, 0⟩ := by
    simp [Vec3.Normalize, Vec3.Norm, Vec3.Dot, Vec3.Mul]
  have hdot : (Vec3.Normalize ⟨2, 0, 0⟩).Dot (Vec3.Normalize ⟨2, 0, 0⟩) = 1 / 4 := by
    rw [h]; simp [Vec3.Dot]; norm_num
  have hsqrt : Real.sqrt ((1 : ℝ) / 4) = 1 / 2 := by
    rw [show (1 / 4 : ℝ) = (1 / 2) ^ 2 by norm_num]
    exact Real.sqrt_sq (by norm_num)
  refine ⟨h, ?_, ?_⟩
  · rw [hdot, hsqrt]
  · rw [hdot, hsqrt]; norm_num

/-- Claim C1: for every dt ≥ 0, `Terrain.Apply` returns a position whose z is
at least `GroundAltitude(pos) + SafetyMarginM`; when below that floor, z is
clamped to the floor exactly, a descending vertical velocity is zeroed
(otherwise kept), x/y of position and velocity are unchanged, and the fixed
warning is emitted; otherwise everything passes through with no warning. -/
theorem terrain_apply_spec (t : Terrain) (dt : ℝ) (pos vel : Vec3) (hdt : 0 ≤ dt) :
    (t.GroundAltitude pos + t.SafetyMarginM ≤ (t.Apply dt pos vel).1.z) ∧
    (pos.z < t.GroundAltitude pos + t.SafetyMarginM →
      (t.Apply dt pos vel).1 = ⟨pos.x, pos.y, t.GroundAltitude pos + t.SafetyMarginM⟩ ∧
      (t.Apply dt pos vel).2.1 = ⟨vel.x, vel.y, if vel.z < 0 then 0 else vel.z⟩ ∧
      (t.Apply dt pos vel).2.2 = "terrain-floor: altitude clipped to safety margin") ∧
    (t.GroundAltitude pos + t.SafetyMarginM ≤ pos.z →
      t.Apply dt pos vel = (pos, vel, "")) := by
  unfold Terrain.Apply
  by_cases h : pos.z < t.GroundAltitude pos + t.SafetyMarginM
  · rw [if_pos h]
    refine ⟨le_refl _, fun _ => ⟨rfl, ?_, rfl⟩, fun hc => absurd h (not_lt.mpr hc)⟩
    by_cases hv : vel.z < 0
    · rw [if_pos hv, if_pos hv]
    · rw [if_neg hv, if_neg hv]
  · rw [if_neg h]
    exact ⟨not_lt.mp h, fun hc => absurd hc h, fun _ => rfl⟩

/-- Witness for C1 at a concrete input: margin 80, dt 1, pos (0, 0, 200),
vel (0, 0, -15); the ground at the origin is 0, so the aircraft is above the
floor and passes through unchanged. -/
theorem terrain_apply_spec_witness :
    Terrain.Apply ⟨80⟩ 1 ⟨0, 0, 200⟩ ⟨0, 0, -15⟩ = (⟨0, 0, 200⟩, ⟨0, 0, -15⟩, "") := by
  have h := (terrain_apply_spec ⟨80⟩ 1 ⟨0, 0, 200⟩ ⟨0, 0, -15⟩ (by norm_num)).2.2
  apply h
  simp [Terrain.GroundAltitude]
  norm_num

/-- The scalar rate limiter equals a clamp of the difference, moves by at most
`amax*dt`, and lands exactly on the desired value when it is within reach. -/
theorem approach_clamp (cur des amax dt : ℝ) (h : 0 ≤ amax * dt) :
    approach cur des amax dt = cur + max (-(amax * dt)) (min (des - cur) (amax * dt)) ∧
    |approach cur des amax dt - cur| ≤ amax * dt ∧
    (|des - cur| ≤ amax * dt → approach cur des amax dt = des) := by
  unfold approach
  split_ifs with h1 h2
  · have hmin : min (des - cur) (amax * dt) = amax * dt := min_eq_right (le_of_lt h1)
    have hmax : max (-(amax * dt)) (amax * dt) = amax * dt :=
      max_eq_right (by linarith)
    refine ⟨by rw [hmin, hmax], ?_, ?_⟩
    · rw [abs_of_nonneg (by linarith : (0 : ℝ) ≤ cur + amax * dt - cur)]; linarith
    · intro habs
      have := abs_le.mp habs
      linarith
  · have hmin : min (des - cur) (amax * dt) = des - cur := min_eq_left (by linarith)
    have hmax : max (-(amax * dt)) (des - cur) = -(amax * dt) :=
      max_eq_left (by linarith)
    refine ⟨by rw [hmin, hmax]; ring, ?_, ?_⟩
    · rw [abs_of_nonpos (by linarith : cur - amax * dt - cur ≤ 0)]; linarith
    · intro habs
      have := abs_le.mp habs
      linarith
  · have hmin : min (des - cur) (amax * dt) = des - cur := min_eq_left (by linarith)
    have hmax : max (-(amax * dt)) (des - cur) = des - cur := max_eq_right (by linarith)
    refine ⟨by rw [hmin, hmax]; ring, ?_, fun _ => rfl⟩
    rw [abs_le]
    constructor <;> linarith

/-- Claim C4: for every dt ≥ 0, the tick's velocity update is a per-axis
rate-limited step `cur + clamp(des - cur, -a_max*dt, a_max*dt)` with
`a_max = 12` horizontally and `5` vertically; the change is bounded by
`a_max*dt` and lands exactly on the desired value when within reach, and
a tick without an environment uses exactly this update on the velocity. -/
theorem approachVel_clamp_spec (cur des : Vec3) (dt : ℝ) (hdt : 0 ≤ dt) :
    approachVel cur des dt =
      ⟨cur.x + max (-(maxHorizAccel * dt)) (min (des.x - cur.x) (maxHorizAccel * dt)),
       cur.y + max (-(maxHorizAccel * dt)) (min (des.y - cur.y) (maxHorizAccel * dt)),
       cur.z + max (-(maxVertAccel * dt)) (min (des.z - cur.z) (maxVertAccel * dt))⟩ ∧
    |(approachVel cur des dt).x - cur.x| ≤ maxHorizAccel * dt ∧
    |(approachVel cur des dt).y - cur.y| ≤ maxHorizAccel * dt ∧
    |(approachVel cur des dt).z - cur.z| ≤ maxVertAccel * dt ∧
    (|des.x - cur.x| ≤ maxHorizAccel * dt → (approachVel cur des dt).x = des.x) ∧
    (|des.y - cur.y| ≤ maxHorizAccel * dt → (approachVel cur des dt).y = des.y) ∧
    (|des.z - cur.z| ≤ maxVertAccel * dt → (approachVel cur des dt).z = des.z) ∧
    maxHorizAccel = 12 ∧ maxVertAccel = 5 ∧
    (∀ (geo : GeoRef) (s : EngineState), s.vel = cur →
      (tickStep geo none dt s).1.vel = approachVel cur (commandStep geo s).2 dt) := by
  have hh : (0 : ℝ) ≤ maxHorizAccel * dt := by
    have : (0 : ℝ) ≤ 12 * dt := by linarith
    simpa [maxHorizAccel] using this
  have hv : (0 : ℝ) ≤ maxVertAccel * dt := by
    have : (0 : ℝ) ≤ 5 * dt := by linarith
    simpa [maxVertAccel] using this
  obtain ⟨ex, bx, lx⟩ := approach_clamp cur.x des.x maxHorizAccel dt hh
  obtain ⟨ey, by_, ly⟩ := approach_clamp cur.y des.y maxHorizAccel dt hh
  obtain ⟨ez, bz, lz⟩ := approach_clamp cur.z des.z maxVertAccel dt hv
  refine ⟨?_, ?_, ?_, ?_, ?_, ?_, ?_, rfl, rfl, ?_⟩
  · show approachVel cur des dt = _
    unfold approachVel
    rw [ex, ey, ez]
  · simpa [approachVel] using bx
  · simpa [approachVel] using by_
  · simpa [approachVel] using bz
  · simpa [approachVel] using lx
  · simpa [approachVel] using ly
  · simpa [approachVel] using lz
  · intro geo s hs
    simp [tickStep, hs]

/-- Witness for C4 at dt = 1 from rest toward (100, -100, 100): the step is
clipped to (12, -12, 5). -/
theorem approachVel_clamp_spec_witness :
    approachVel ⟨0, 0, 0⟩ ⟨100, -100, 100⟩ 1 = ⟨12, -12, 5⟩ := by
  have h := (approachVel_clamp_spec ⟨0, 0, 0⟩ ⟨100, -100, 100⟩ 1 (by norm_num)).1
  rw [h]
  simp [maxHorizAccel, maxVertAccel]
  norm_num

/-- The longitude scale factor is positive when the origin latitude is
strictly between -90 and 90 degrees. -/
theorem metersPerDegLon_pos (g : GeoRef) (h : |g.OriginLat| < 90) :
    0 < g.metersPerDegLon := by
  unfold GeoRef.metersPerDegLon metersPerDegLat
  have hpi := Real.pi_pos
  have habs := abs_lt.mp h
  have hcos : 0 < Real.cos (g.OriginLat * Real.pi / 180) := by
    apply Real.cos_pos_of_mem_Ioo
    constructor
    · show -(Real.pi / 2) < g.OriginLat * Real.pi / 180
      nlinarith [habs.1]
    · show g.OriginLat * Real.pi / 180 < Real.pi / 2
      nlinarith [habs.2]
  positivity

/-- Claim C7: when the origin latitude is strictly inside (-90, 90),
`GeoToLocal` and `LocalToGeo` are exact mutual inverses over exact
arithmetic, for all inputs. -/
theorem geo_roundtrip (g : GeoRef) (lat lon alt : ℝ) (h : |g.OriginLat| < 90) :
    g.LocalToGeo (g.GeoToLocal lat lon alt) = (lat, lon, alt) ∧
    (∀ p : Vec3,
      g.GeoToLocal (g.LocalToGeo p).1 (g.LocalToGeo p).2.1 (g.LocalToGeo p).2.2 = p) := by
  have hml : g.metersPerDegLon ≠ 0 := ne_of_gt (metersPerDegLon_pos g h)
  have hmlat : metersPerDegLat ≠ 0 := by unfold metersPerDegLat; norm_num
  constructor
  · unfold GeoRef.LocalToGeo GeoRef.GeoToLocal
    simp only [Prod.mk.injEq]
    refine ⟨?_, ?_, trivial⟩
    · field_simp
    · field_simp
  · intro p
    unfold GeoRef.GeoToLocal GeoRef.LocalToGeo
    simp only [add_sub_cancel_left]
    have hx : p.x / g.metersPerDegLon * g.metersPerDegLon = p.x := by field_simp
    have hy : p.y / metersPerDegLat * metersPerDegLat = p.y := by field_simp
    rw [hx, hy]

/-- Witness for C7: origin (0, 0), point (1, 2, 3) round-trips exactly. -/
theorem geo_roundtrip_witness :
    GeoRef.LocalToGeo ⟨0, 0⟩ (GeoRef.GeoToLocal ⟨0, 0⟩ 1 2 3) = (1, 2, 3) := by
  exact (geo_roundtrip ⟨0, 0⟩ 1 2 3 (by norm_num)).1

/-- Folding the if-nonempty-overwrite accumulator over a cons matches
filtering out empty strings and taking the last element. -/
theorem filter_getLastD_cons (w : String) (L : List String) (acc : String) :
    (List.filter (fun s => decide (s ≠ "")) (w :: L)).getLastD acc
      = (List.filter (fun s => decide (s ≠ "")) L).getLastD
          (if w ≠ "" then w else acc) := by
  by_cases hw : w = ""
  · simp [List.filter_cons, hw]
  · rw [List.filter_cons]
    rw [if_pos (by simp [hw] : decide (w ≠ "") = true)]
    rw [List.getLastD_cons]
    rw [if_pos hw]

/-- The chain loop threads position/velocity left to right and its warning
accumulator ends as the last non-empty emitted warning (or the initial
accumulator when none is non-empty). -/
theorem chain_applyFrom_eq (dt : ℝ) (effects : List Environment) :
    ∀ (pos vel : Vec3) (acc : String),
      Chain.applyFrom dt effects pos vel acc =
        ((chainThread dt effects pos vel).1, (chainThread dt effects pos vel).2,
         ((chainWarningList dt effects pos vel).filter
             (fun w => decide (w ≠ ""))).getLastD acc) := by
  induction effects with
  | nil =>
    intro pos vel acc
    rfl
  | cons e rest ih =>
    intro pos vel acc
    have hstep : Chain.applyFrom dt (e :: rest) pos vel acc
        = Chain.applyFrom dt rest (e dt pos vel).1 (e dt pos vel).2.1
            (if (e dt pos vel).2.2 ≠ "" then (e dt pos vel).2.2 else acc) := rfl
    have hthread : chainThread dt (e :: rest) pos vel
        = chainThread dt rest (e dt pos vel).1 (e dt pos vel).2.1 := by
      simp [chainThread]
    have hwl : chainWarningList dt (e :: rest) pos vel
        = (e dt pos vel).2.2
            :: chainWarningList dt rest (e dt pos vel).1 (e dt pos vel).2.1 := rfl
    rw [hstep, ih, hthread, hwl, filter_getLastD_cons]

/-- Claim C6: `Chain.Apply` applies the effects in list order, threading the
position and velocity of effect i into effect i+1, and returns the last
non-empty warning encountered (empty when no effect warned); earlier
warnings are overwritten, never concatenated. -/
theorem chain_apply_spec (c : Chain) (dt : ℝ) (pos vel : Vec3) :
    (c.Apply dt pos vel).1 = (chainThread dt c.Effects pos vel).1 ∧
    (c.Apply dt pos vel).2.1 = (chainThread dt c.Effects pos vel).2 ∧
    (c.Apply dt pos vel).2.2 = lastNonEmpty (chainWarningList dt c.Effects pos vel) := by
  have h := chain_applyFrom_eq dt c.Effects pos vel ""
  unfold Chain.Apply lastNonEmpty
  rw [h]
  exact ⟨rfl, rfl, rfl⟩

/-- Claim C10: the snapshot replied to a `GetState` request and the snapshot
sent to a newly registered subscriber always carry an empty warning,
whatever the engine state is (the state stores no warning at all); only the
snapshot broadcast at the end of a tick carries that tick's warning. -/
theorem snapshot_warning_spec (geo : GeoRef) (s : EngineState)
    (envOpt : Option Environment) (dt : ℝ) :
    (getStateReply geo s).Warning = "" ∧
    (subscribeSnapshot geo s).Warning = "" ∧
    (tickBroadcast geo envOpt dt s).Warning = (tickStep geo envOpt dt s).2 := by
  exact ⟨rfl, rfl, rfl⟩

/-- Claim C2: on a tick whose active command is a GoTo for target
(lat, lon, alt), with the target converted to the local frame: if arrival
holds (horizontal distance ≤ 25 and vertical error ≤ 10 in absolute value)
the active command is cleared to Idle and the desired velocity zeroed;
otherwise the command is kept and the desired velocity is the horizontal
unit vector toward the target scaled by the commanded speed (80 default for
non-positive speed) when the horizontal distance exceeds 25 (zero
otherwise), with vertical component ±maxClimbRate outside the ±10 band. -/
theorem goto_tick_spec (geo : GeoRef) (s : EngineState) (lat lon alt speed : ℝ)
    (tx ty tz px py pz sp hD : ℝ)
    (h : s.active = some (Command.goTo lat lon alt speed))
    (ht : geo.GeoToLocal lat lon alt = ⟨tx, ty, tz⟩)
    (hp : s.pos = ⟨px, py, pz⟩)
    (hsp : sp = if speed ≤ 0 then defaultSpeed else speed)
    (hhd : hD = dist2D ⟨tx - px, ty - py, 0⟩) :
    (hD ≤ posTolM ∧ |tz - pz| ≤ altTolM →
      commandStep geo s = ({ s with active := none }, ⟨0, 0, 0⟩)) ∧
    (¬(hD ≤ posTolM ∧ |tz - pz| ≤ altTolM) →
      commandStep geo s = (s,
        ⟨(if posTolM < hD then (tx - px) / hD * sp else 0),
         (if posTolM < hD then (ty - py) / hD * sp else 0),
         (if altTolM < tz - pz then maxClimbRate
          else if tz - pz < -altTolM then -maxClimbRate else 0)⟩)) := by
  obtain ⟨pos0, vel0, active0, traj0, trajIdx0, trajLoop0⟩ := s
  simp only at h hp
  subst h
  subst hp
  subst hsp
  subst hhd
  simp only [commandStep, ht]
  by_cases harr : dist2D ⟨tx - px, ty - py, 0⟩ ≤ posTolM ∧ |tz - pz| ≤ altTolM
  · constructor
    · intro _
      rw [if_pos (by simpa using harr)]
    · intro hc
      exact absurd harr hc
  · constructor
    · intro hc
      exact absurd hc harr
    · intro _
      rw [if_neg (by simpa using harr)]
      simp only [Prod.mk.injEq, true_and]
      unfold computeDesiredVel normalize2D
      simp only
      by_cases hfar : posTolM < dist2D ⟨tx - px, ty - py, 0⟩
      · have hnotsmall : ¬ dist2D ⟨tx - px, ty - py, 0⟩ < 1e-9 := by
          rw [not_lt]
          have h25 : (1e-9 : ℝ) ≤ 25 := by norm_num
          calc (1e-9 : ℝ) ≤ 25 := h25
            _ ≤ dist2D ⟨tx - px, ty - py, 0⟩ := le_of_lt (by simpa [posTolM] using hfar)
        rw [if_pos (show dist2D ⟨tx - px, ty - py, 0⟩ > posTolM from hfar),
          if_pos (show dist2D ⟨tx - px, ty - py, 0⟩ > posTolM from hfar),
          if_pos hfar, if_pos hfar, if_neg hnotsmall]
      · rw [if_neg (show ¬ dist2D ⟨tx - px, ty - py, 0⟩ > posTolM from hfar),
          if_neg (show ¬ dist2D ⟨tx - px, ty - py, 0⟩ > posTolM from hfar),
          if_neg hfar, if_neg hfar]

/-- Witness for C2: origin (0, 0), aircraft at local (0, 0, 0), GoTo
(1, 0, 1000) with speed 0; the target is 111320 m north and 1000 m up, so
the desired velocity is (0, 80, 8) with the 80 m/s default speed. -/
theorem goto_tick_spec_witness :
    commandStep ⟨0, 0⟩
        ⟨⟨0, 0, 0⟩, ⟨0, 0, 0⟩, some (Command.goTo 1 0 1000 0), [], 0, false⟩
      = (⟨⟨0, 0, 0⟩, ⟨0, 0, 0⟩, some (Command.goTo 1 0 1000 0), [], 0, false⟩,
         (⟨0, 80, 8⟩ : Vec3)) := by
  have ht : GeoRef.GeoToLocal ⟨0, 0⟩ 1 0 1000 = (⟨0, 111320, 1000⟩ : Vec3) := by
    unfold GeoRef.GeoToLocal
    simp [metersPerDegLat]
  have hhd : (111320 : ℝ) = dist2D ⟨0 - 0, 111320 - 0, 0⟩ := by
    unfold dist2D
    simp only
    rw [show ((0 - 0) * (0 - 0) + (111320 - 0) * (111320 - 0) : ℝ) = 111320 ^ 2 by ring]
    rw [Real.sqrt_sq (by norm_num)]
  have h := goto_tick_spec ⟨0, 0⟩
      ⟨⟨0, 0, 0⟩, ⟨0, 0, 0⟩, some (Command.goTo 1 0 1000 0), [], 0, false⟩
      1 0 1000 0 0 111320 1000 0 0 0 80 111320
      rfl ht rfl (by norm_num [defaultSpeed]) hhd
  have h2 := h.2 (by norm_num [posTolM, altTolM])
  rw [h2]
  norm_num [posTolM, altTolM, maxClimbRate, Prod.mk.injEq, Vec3.mk.injEq]

/-- The claim's desired-velocity formula: horizontal unit vector toward the
target scaled by the speed outside the 25 m tolerance, vertical
±maxClimbRate outside the ±10 m band. -/
noncomputable def desiredToward (tx ty tz px py pz hD sp : ℝ) : Vec3 :=
  ⟨if posTolM < hD then (tx - px) / hD * sp else 0,
   if posTolM < hD then (ty - py) / hD * sp else 0,
   if altTolM < tz - pz then maxClimbRate
   else if tz - pz < -altTolM then -maxClimbRate else 0⟩

/-- `computeDesiredVel` coincides with the claim formula: its sub-25-meter
guard in `normalize2D` (threshold 1e-9) is subsumed by the 25 m tolerance. -/
theorem computeDesiredVel_eq (px py pz tx ty tz sp : ℝ) :
    computeDesiredVel ⟨px, py, pz⟩ ⟨tx, ty, tz⟩ sp
      = desiredToward tx ty tz px py pz (dist2D ⟨tx - px, ty - py, 0⟩) sp := by
  unfold computeDesiredVel normalize2D desiredToward
  simp only
  by_cases hfar : posTolM < dist2D ⟨tx - px, ty - py, 0⟩
  · have hnotsmall : ¬ dist2D ⟨tx - px, ty - py, 0⟩ < 1e-9 := by
      rw [not_lt]
      calc (1e-9 : ℝ) ≤ 25 := by norm_num
        _ ≤ dist2D ⟨tx - px, ty - py, 0⟩ := le_of_lt (by simpa [posTolM] using hfar)
    rw [if_pos (show dist2D ⟨tx - px, ty - py, 0⟩ > posTolM from hfar),
      if_pos (show dist2D ⟨tx - px, ty - py, 0⟩ > posTolM from hfar),
      if_pos hfar, if_pos hfar, if_neg hnotsmall]
  · rw [if_neg (show ¬ dist2D ⟨tx - px, ty - py, 0⟩ > posTolM from hfar),
      if_neg (show ¬ dist2D ⟨tx - px, ty - py, 0⟩ > posTolM from hfar),
      if_neg hfar, if_neg hfar]

/-- Claim C3: on a tick whose active command is a Trajectory: an index
already out of bounds on entry (in particular an empty waypoint list)
clears to Idle; otherwise the GoTo per-waypoint logic runs against
`waypoints[index]`; arrival advances the index; an overrun index wraps to 0
when looping (the command staying active), and clears to Idle with a zeroed
desired velocity when not looping. -/
theorem trajectory_tick_spec (geo : GeoRef) (s : EngineState)
    (wps : List Waypoint) (lp : Bool) (wp : Waypoint)
    (tx ty tz px py pz sp hD : ℝ)
    (h : s.active = some (Command.trajectory wps lp))
    (hwp : s.traj.getD s.trajIdx ⟨0, 0, 0, 0⟩ = wp)
    (ht : geo.GeoToLocal wp.Lat wp.Lon wp.Alt = ⟨tx, ty, tz⟩)
    (hp : s.pos = ⟨px, py, pz⟩)
    (hsp : sp = if wp.Speed ≤ 0 then defaultSpeed else wp.Speed)
    (hhd : hD = dist2D ⟨tx - px, ty - py, 0⟩) :
    (s.traj.length ≤ s.trajIdx →
       commandStep geo s = ({ s with active := none }, ⟨0, 0, 0⟩)) ∧
    (s.trajIdx < s.traj.length →
      (¬(hD ≤ posTolM ∧ |tz - pz| ≤ altTolM) →
         commandStep geo s = (s, desiredToward tx ty tz px py pz hD sp)) ∧
      (hD ≤ posTolM ∧ |tz - pz| ≤ altTolM →
        (s.trajIdx + 1 < s.traj.length →
           commandStep geo s =
             ({ s with trajIdx := s.trajIdx + 1 }, desiredToward tx ty tz px py pz hD sp)) ∧
        (s.traj.length ≤ s.trajIdx + 1 →
          (s.trajLoop = true →
             commandStep geo s =
               ({ s with trajIdx := 0 }, desiredToward tx ty tz px py pz hD sp)) ∧
          (s.trajLoop = false →
             commandStep geo s =
               ({ s with active := none, trajIdx := s.trajIdx + 1 }, ⟨0, 0, 0⟩))))) := by
  obtain ⟨pos0, vel0, active0, traj0, trajIdx0, trajLoop0⟩ := s
  simp only at h hwp hp
  subst h
  subst hp
  subst hsp
  subst hhd
  constructor
  · intro hinv
    simp only [commandStep]
    rw [if_pos (Or.inr hinv)]
  · intro hvalid
    have hvalid2 : trajIdx0 < traj0.length := hvalid
    have hnotinv : ¬(traj0.length = 0 ∨ trajIdx0 ≥ traj0.length) := by
      push_neg
      constructor
      · omega
      · omega
    simp only [commandStep]
    rw [if_neg hnotinv, hwp, ht]
    simp only
    rw [computeDesiredVel_eq px py pz tx ty tz]
    by_cases harr : dist2D ⟨tx - px, ty - py, 0⟩ ≤ posTolM ∧ |tz - pz| ≤ altTolM
    · refine ⟨fun hc => absurd harr hc, fun _ => ?_⟩
      rw [if_pos harr]
      constructor
      · intro hlt
        have hlt2 : trajIdx0 + 1 < traj0.length := hlt
        rw [if_neg (by omega : ¬ trajIdx0 + 1 ≥ traj0.length)]
      · intro hge
        have hge2 : traj0.length ≤ trajIdx0 + 1 := hge
        rw [if_pos (by omega : trajIdx0 + 1 ≥ traj0.length)]
        constructor
        · intro hl
          rw [hl]
          rw [if_pos rfl]
        · intro hl
          rw [hl]
          simp only [Bool.false_eq_true, if_false]
    · refine ⟨fun _ => ?_, fun hc => absurd hc harr⟩
      rw [if_neg harr]

/-- Witness for C3: two waypoints with loop=true, cursor at the last
waypoint, aircraft already at it; the tick wraps the cursor to 0 and keeps
the command active. -/
theorem trajectory_tick_spec_witness :
    commandStep ⟨0, 0⟩
        ⟨⟨0, 0, 1000⟩, ⟨0, 0, 0⟩,
         some (Command.trajectory [⟨1, 1, 0, 0⟩, ⟨0, 0, 1000, 0⟩] true),
         [⟨1, 1, 0, 0⟩, ⟨0, 0, 1000, 0⟩], 1, true⟩
      = (⟨⟨0, 0, 1000⟩, ⟨0, 0, 0⟩,
          some (Command.trajectory [⟨1, 1, 0, 0⟩, ⟨0, 0, 1000, 0⟩] true),
          [⟨1, 1, 0, 0⟩, ⟨0, 0, 1000, 0⟩], 0, true⟩,
         (⟨0, 0, 0⟩ : Vec3)) := by
  have ht : GeoRef.GeoToLocal ⟨0, 0⟩ 0 0 1000 = (⟨0, 0, 1000⟩ : Vec3) := by
    unfold GeoRef.GeoToLocal
    simp [metersPerDegLat]
  have hhd : (0 : ℝ) = dist2D ⟨0 - 0, 0 - 0, 0⟩ := by
    unfold dist2D
    norm_num [Real.sqrt_zero]
  have h := trajectory_tick_spec ⟨0, 0⟩
      ⟨⟨0, 0, 1000⟩, ⟨0, 0, 0⟩,
       some (Command.trajectory [⟨1, 1, 0, 0⟩, ⟨0, 0, 1000, 0⟩] true),
       [⟨1, 1, 0, 0⟩, ⟨0, 0, 1000, 0⟩], 1, true⟩
      [⟨1, 1, 0, 0⟩, ⟨0, 0, 1000, 0⟩] true ⟨0, 0, 1000, 0⟩
      0 0 1000 0 0 1000 80 0
      rfl rfl ht rfl (by norm_num [defaultSpeed]) hhd
  have h2 := (h.2 (by norm_num : (1 : ℕ) < 2)).2
      ⟨by norm_num [posTolM], by norm_num [altTolM]⟩
  have h3 := (h2.2 (by norm_num : (2 : ℕ) ≤ 2)).1 rfl
  rw [h3]
  norm_num [desiredToward, posTolM, altTolM, Prod.mk.injEq, Vec3.mk.injEq]

/-- The cursor bookkeeping invariant the engine actually maintains: idle
states carry a cursor of 0 or one equal to the stored waypoint count;
GoTo/Hold keep it at 0; an active trajectory keeps it within bounds
(possibly one past the end only transiently, never while active). -/
def cursorInv (s : EngineState) : Prop :=
  (s.active = none → s.trajIdx = 0 ∨ s.trajIdx = s.traj.length) ∧
  (∀ lat lon alt speed, s.active = some (Command.goTo lat lon alt speed) → s.trajIdx = 0) ∧
  (s.active = some Command.hold → s.trajIdx = 0) ∧
  (∀ wps lp, s.active = some (Command.trajectory wps lp) → s.trajIdx ≤ s.traj.length)

/-- The command state machine part of a tick preserves the cursor invariant. -/
theorem cursorInv_commandStep (geo : GeoRef) (s : EngineState) (h : cursorInv s) :
    cursorInv (commandStep geo s).1 := by
  obtain ⟨hnone, hgoto, hhold, htraj⟩ := h
  rcases hactive : s.active with _ | c
  · have heq : (commandStep geo s).1 = s := by
      simp [commandStep, hactive]
    rw [heq]
    exact ⟨hnone, hgoto, hhold, htraj⟩
  · cases c with
    | hold =>
      have heq : (commandStep geo s).1 = s := by
        simp [commandStep, hactive]
      rw [heq]
      exact ⟨hnone, hgoto, hhold, htraj⟩
    | stop =>
      have heq : (commandStep geo s).1 = s := by
        simp [commandStep, hactive]
      rw [heq]
      exact ⟨hnone, hgoto, hhold, htraj⟩
    | goTo lat lon alt speed =>
      have hidx := hgoto lat lon alt speed hactive
      by_cases harr :
          dist2D ⟨(geo.GeoToLocal lat lon alt).x - s.pos.x,
            (geo.GeoToLocal lat lon alt).y - s.pos.y, 0⟩ ≤ posTolM ∧
          |(geo.GeoToLocal lat lon alt).z - s.pos.z| ≤ altTolM
      · have heq : (commandStep geo s).1 = { s with active := none } := by
          simp only [commandStep, hactive]
          rw [if_pos harr]
        rw [heq]
        exact ⟨fun _ => Or.inl hidx,
          fun l1 l2 l3 l4 hc => Option.noConfusion hc,
          fun hc => Option.noConfusion hc,
          fun w l hc => Option.noConfusion hc⟩
      · have heq : (commandStep geo s).1 = s := by
          simp only [commandStep, hactive]
          rw [if_neg harr]
        rw [heq]
        exact ⟨hnone, hgoto, hhold, htraj⟩
    | trajectory wps lp =>
      have hbound := htraj wps lp hactive
      by_cases hinv : s.traj.length = 0 ∨ s.trajIdx ≥ s.traj.length
      · have heq : (commandStep geo s).1 = { s with active := none } := by
          simp only [commandStep, hactive]
          rw [if_pos hinv]
        rw [heq]
        refine ⟨fun _ => ?_, fun l1 l2 l3 l4 hc => Option.noConfusion hc,
          fun hc => Option.noConfusion hc, fun w l hc => Option.noConfusion hc⟩
        show s.trajIdx = 0 ∨ s.trajIdx = s.traj.length
        omega
      · by_cases harr :
            dist2D ⟨(geo.GeoToLocal (s.traj.getD s.trajIdx ⟨0, 0, 0, 0⟩).Lat
                (s.traj.getD s.trajIdx ⟨0, 0, 0, 0⟩).Lon
                (s.traj.getD s.trajIdx ⟨0, 0, 0, 0⟩).Alt).x - s.pos.x,
              (geo.GeoToLocal (s.traj.getD s.trajIdx ⟨0, 0, 0, 0⟩).Lat
                (s.traj.getD s.trajIdx ⟨0, 0, 0, 0⟩).Lon
                (s.traj.getD s.trajIdx ⟨0, 0, 0, 0⟩).Alt).y - s.pos.y, 0⟩ ≤ posTolM ∧
            |(geo.GeoToLocal (s.traj.getD s.trajIdx ⟨0, 0, 0, 0⟩).Lat
                (s.traj.getD s.trajIdx ⟨0, 0, 0, 0⟩).Lon
                (s.traj.getD s.trajIdx ⟨0, 0, 0, 0⟩).Alt).z - s.pos.z| ≤ altTolM
        · by_cases hover : s.trajIdx + 1 ≥ s.traj.length
          · cases hLoop : s.trajLoop with
            | true =>
              have heq : (commandStep geo s).1 = { s with trajIdx := 0 } := by
                simp only [commandStep, hactive]
                rw [if_neg hinv, if_pos harr, if_pos hover, hLoop, if_pos rfl]
              rw [heq]
              refine ⟨?_, ?_, ?_, ?_⟩
              · intro hc
                have hc2 : s.active = none := hc
                rw [hactive] at hc2
                exact Option.noConfusion hc2
              · intro l1 l2 l3 l4 hc
                have hc2 : s.active = some (Command.goTo l1 l2 l3 l4) := hc
                rw [hactive] at hc2
              · intro hc
                have hc2 : s.active = some Command.hold := hc
                rw [hactive] at hc2
              · intro w l _
                show (0 : ℕ) ≤ s.traj.length
                omega
            | false =>
              have heq : (commandStep geo s).1
                  = { s with active := none, trajIdx := s.trajIdx + 1 } := by
                simp only [commandStep, hactive]
                rw [if_neg hinv, if_pos harr, if_pos hover, hLoop]
                simp only [Bool.false_eq_true, if_false]
              rw [heq]
              refine ⟨fun _ => ?_, fun l1 l2 l3 l4 hc => Option.noConfusion hc,
                fun hc => Option.noConfusion hc, fun w l hc => Option.noConfusion hc⟩
              show s.trajIdx + 1 = 0 ∨ s.trajIdx + 1 = s.traj.length
              omega
          · have heq : (commandStep geo s).1 = { s with trajIdx := s.trajIdx + 1 } := by
              simp only [commandStep, hactive]
              rw [if_neg hinv, if_pos harr, if_neg hover]
            rw [heq]
            refine ⟨?_, ?_, ?_, ?_⟩
            · intro hc
              have hc2 : s.active = none := hc
              rw [hactive] at hc2
              exact Option.noConfusion hc2
            · intro l1 l2 l3 l4 hc
              have hc2 : s.active = some (Command.goTo l1 l2 l3 l4) := hc
              rw [hactive] at hc2
              injection hc2 with hc3
              exact Command.noConfusion hc3
            · intro hc
              have hc2 : s.active = some Command.hold := hc
              rw [hactive] at hc2
              injection hc2 with hc3
              exact Command.noConfusion hc3
            · intro w l _
              show s.trajIdx + 1 ≤ s.traj.length
              omega
        · have heq : (commandStep geo s).1 = s := by
            simp only [commandStep, hactive]
            rw [if_neg hinv, if_neg harr]
          rw [heq]
          exact ⟨hnone, hgoto, hhold, htraj⟩

/-- Every reachable engine state satisfies the cursor invariant. -/
theorem reachable_cursorInv (geo : GeoRef) (envOpt : Option Environment)
    (s : EngineState) (h : Reachable geo envOpt s) : cursorInv s := by
  induction h with
  | init =>
    refine ⟨fun _ => Or.inl rfl, ?_, ?_, ?_⟩
    · intro l1 l2 l3 l4 hc
      exact Option.noConfusion hc
    · intro hc
      exact Option.noConfusion hc
    · intro w l hc
      exact Option.noConfusion hc
  | cmd s c hr ih =>
    cases c <;> simp [cursorInv, applyCommand, setActive]
  | tick s dt hdt hr ih =>
    obtain ⟨p1, p2, p3, p4⟩ := cursorInv_commandStep geo s ih
    exact ⟨p1, p2, p3, p4⟩

/-- The engine state reached from the initial state by submitting a
single-waypoint non-looping trajectory at the aircraft's own position and
ticking once: the command has completed (Idle) but the cursor is 1. -/
noncomputable def cexState : EngineState :=
  ⟨⟨0, 0, 1000⟩, ⟨0, 0, 0⟩, none, [⟨0, 0, 1000, 0⟩], 1, false⟩

/-- Claim C8 counterexample: a reachable state that is Idle while its
trajectory cursor is 1, not 0 — immediately after a non-looping trajectory
completes its last waypoint the code clears the active command but leaves
`trajIdx` at the waypoint count. -/
theorem idle_cursor_counterexample :
    Reachable ⟨0, 0⟩ none cexState ∧ cexState.active = none ∧ cexState.trajIdx ≠ 0 := by
  refine ⟨?_, rfl, by norm_num [cexState]⟩
  have hpos : GeoRef.GeoToLocal ⟨0, 0⟩ 0 0 1000 = (⟨0, 0, 1000⟩ : Vec3) := by
    unfold GeoRef.GeoToLocal
    simp [metersPerDegLat]
  have h1 : applyCommand (initState ⟨0, 0⟩) (Command.trajectory [⟨0, 0, 1000, 0⟩] false)
      = ⟨⟨0, 0, 1000⟩, ⟨0, 0, 0⟩, some (Command.trajectory [⟨0, 0, 1000, 0⟩] false),
         [⟨0, 0, 1000, 0⟩], 0, false⟩ := by
    unfold applyCommand setActive initState
    rw [hpos]
  have hd0 : dist2D ⟨(0 : ℝ), 0, 0⟩ = 0 := by
    unfold dist2D
    norm_num [Real.sqrt_zero]
  have h2 : commandStep ⟨0, 0⟩
        ⟨⟨0, 0, 1000⟩, ⟨0, 0, 0⟩, some (Command.trajectory [⟨0, 0, 1000, 0⟩] false),
         [⟨0, 0, 1000, 0⟩], 0, false⟩
      = (⟨⟨0, 0, 1000⟩, ⟨0, 0, 0⟩, none, [⟨0, 0, 1000, 0⟩], 1, false⟩, ⟨0, 0, 0⟩) := by
    simp only [commandStep, List.getD_cons_zero]
    rw [if_neg (by simp)]
    rw [hpos]
    simp only
    rw [if_pos (by constructor; all_goals norm_num [hd0, posTolM, altTolM])]
    rw [if_pos (by simp)]
    simp only [Bool.false_eq_true, if_false]
  have hvel : approachVel ⟨0, 0, 0⟩ ⟨0, 0, 0⟩ (1 / 20) = ⟨0, 0, 0⟩ := by
    unfold approachVel approach
    norm_num [maxHorizAccel, maxVertAccel]
  have h3 : (tickStep ⟨0, 0⟩ none (1 / 20)
        ⟨⟨0, 0, 1000⟩, ⟨0, 0, 0⟩, some (Command.trajectory [⟨0, 0, 1000, 0⟩] false),
         [⟨0, 0, 1000, 0⟩], 0, false⟩).1 = cexState := by
    unfold tickStep
    rw [h2]
    simp only
    rw [hvel]
    unfold cexState
    norm_num
  have hr1 : Reachable ⟨0, 0⟩ none
      ⟨⟨0, 0, 1000⟩, ⟨0, 0, 0⟩, some (Command.trajectory [⟨0, 0, 1000, 0⟩] false),
       [⟨0, 0, 1000, 0⟩], 0, false⟩ :=
    h1 ▸ Reachable.cmd _ _ Reachable.init
  have hr2 := Reachable.tick _ (1 / 20) (by norm_num) hr1
  rw [h3] at hr2
  exact hr2

/-- Claim C8 as amended: in every reachable engine state, whenever no
command is active the trajectory cursor is either 0 (after Stop, Hold,
a GoTo arrival, command replacement, or at start) or equal to the stored
waypoint count (immediately after a non-looping trajectory completes or is
cleared for an out-of-bounds index); it is not always reset to 0. -/
theorem idle_cursor_invariant_amended (geo : GeoRef) (envOpt : Option Environment)
    (s : EngineState) (h : Reachable geo envOpt s) (hidle : s.active = none) :
    s.trajIdx = 0 ∨ s.trajIdx = s.traj.length :=
  (reachable_cursorInv geo envOpt s h).1 hidle

/-- Witness for the amended C8 at the initial state of an engine with
origin (0, 0) and no environment. -/
theorem idle_cursor_invariant_amended_witness :
    (initState ⟨0, 0⟩).trajIdx = 0 ∨
      (initState ⟨0, 0⟩).trajIdx = (initState ⟨0, 0⟩).traj.length :=
  idle_cursor_invariant_amended ⟨0, 0⟩ none (initState ⟨0, 0⟩) Reachable.init rfl
